import Mathlib

/-!
Shallow embedding of the encrypted-state-persistence engine of the
multiapp-sidecar repository (src-tauri/src/crypto.rs and
src-tauri/src/state.rs), together with theorems settling the spec claims.

Modelling conventions:
* Rust `Vec<u8>` byte strings are `List Nat` with bytes `< 256` stated as
  hypotheses where the arithmetic needs them.
* Fallible Rust code (`Result`) is `Except` / an explicit outcome type;
  Rust panics (slice-length panics of `GenericArray::from_slice`) are an
  explicit `panicked` outcome constructor.
* `OsRng` randomness (the fresh salt and nonce of `encrypt`, the uuid and
  timestamp of new records, the success of `std::fs::write`) is passed in
  explicitly as environment data.
* serde_json values are the inductive `Json`; rendering a `Json` value to
  its file text and parsing it back (`to_string_pretty` / `from_str`) is
  the identity on well-formed documents, so the state file is modelled as
  an `Option Json` (`none` = file absent).
* External library primitives that are not code of this repository
  (Argon2's hash function, the AES-GCM keystream and authentication tag)
  are modelled by concrete executable functions with the library's
  interface contract: the KDF is a deterministic function of
  (passphrase, salt); the AEAD cipher XORs a (key, nonce)-determined
  keystream and appends a 16-byte (key, nonce, plaintext)-determined tag
  which decryption recomputes and verifies.  base64 (the `STANDARD`
  engine: padded, canonical) is modelled in full.
-/

/-- serde_json's value type (`serde_json::Value`).  Numbers are modelled
as integers; objects as association lists in serialization order. -/
inductive Json where
  | null : Json
  | bool (b : Bool) : Json
  | num (n : Int) : Json
  | str (s : String) : Json
  | arr (xs : List Json) : Json
  | obj (fields : List (String × Json)) : Json

/-- Field access on a serde_json object: first binding wins. -/
def Json.getField (j : Json) (key : String) : Option Json :=
  match j with
  | .obj fields => fields.lookup key
  | _ => none

def Json.asStr : Json → Option String
  | .str s => some s
  | _ => none

def Json.asBool : Json → Option Bool
  | .bool b => some b
  | _ => none

/-! ## base64 (the `base64` crate's `general_purpose::STANDARD` engine:
padded output, canonical padding required on decode). -/

def b64Chars : List Char :=
  ['A', 'B', 'C', 'D', 'E', 'F', 'G', 'H', 'I', 'J', 'K', 'L', 'M',
   'N', 'O', 'P', 'Q', 'R', 'S', 'T', 'U', 'V', 'W', 'X', 'Y', 'Z',
   'a', 'b', 'c', 'd', 'e', 'f', 'g', 'h', 'i', 'j', 'k', 'l', 'm',
   'n', 'o', 'p', 'q', 'r', 's', 't', 'u', 'v', 'w', 'x', 'y', 'z',
   '0', '1', '2', '3', '4', '5', '6', '7', '8', '9', '+', '/']

def sextetToChar (n : Nat) : Char := b64Chars.getD n '?'

def charToSextet (c : Char) : Option Nat :=
  b64Chars.findIdx? (· == c)

def base64EncodeChunks : List Nat → List Char
  | a :: b :: c :: rest =>
      sextetToChar (a / 4) :: sextetToChar ((a % 4) * 16 + b / 16) ::
      sextetToChar ((b % 16) * 4 + c / 64) :: sextetToChar (c % 64) ::
      base64EncodeChunks rest
  | [a, b] =>
      [sextetToChar (a / 4), sextetToChar ((a % 4) * 16 + b / 16),
       sextetToChar ((b % 16) * 4), '=']
  | [a] =>
      [sextetToChar (a / 4), sextetToChar ((a % 4) * 16), '=', '=']
  | [] => []

def base64Encode (bs : List Nat) : String := String.mk (base64EncodeChunks bs)

def base64DecodeChunks : List Char → Option (List Nat)
  | [] => some []
  | c1 :: c2 :: c3 :: c4 :: rest =>
    match charToSextet c1, charToSextet c2 with
    | some s1, some s2 =>
      if c3 = '=' then
        if c4 = '=' ∧ rest = [] ∧ s2 % 16 = 0 then
          some [s1 * 4 + s2 / 16]
        else none
      else
        match charToSextet c3 with
        | some s3 =>
          if c4 = '=' then
            if rest = [] ∧ s3 % 4 = 0 then
              some [s1 * 4 + s2 / 16, (s2 % 16) * 16 + s3 / 4]
            else none
          else
            match charToSextet c4 with
            | some s4 =>
              (base64DecodeChunks rest).map
                (fun bs => (s1 * 4 + s2 / 16) :: ((s2 % 16) * 16 + s3 / 4) ::
                           ((s3 % 4) * 64 + s4) :: bs)
            | none => none
        | none => none
    | _, _ => none
  | _ => none

def base64Decode (s : String) : Option (List Nat) :=
  base64DecodeChunks s.toList

/-! ## crypto.rs: `CryptoError`, `EncryptedData`, `CryptoManager` -/

/-- `CryptoError` of crypto.rs.  The `String` payloads carry the
stringified library errors; the model uses fixed descriptive strings. -/
inductive CryptoError where
  | EncryptionFailed (msg : String)
  | DecryptionFailed (msg : String)
  | KeyDerivationFailed (msg : String)
  | InvalidPassphrase
  | SerializationError (msg : String)
deriving DecidableEq, Repr

/-- `EncryptedData` of crypto.rs: the on-disk envelope, three base64
text fields. -/
structure EncryptedData where
  salt : String
  nonce : String
  ciphertext : String
deriving DecidableEq, Repr

/-- `CryptoManager` of crypto.rs.  `key_cache` models the
`HashMap<String, Vec<u8>>` as an association list (insert = cons, which
has the same `get` observations).  `derivations` is a ghost
instrumentation counter — spec §8 sanctions an instrumentation hook —
incremented exactly when the Argon2 derivation actually runs. -/
structure CryptoManager where
  passphrase : Option String
  key_cache : List (String × List Nat)
  derivations : Nat

/-- `CryptoManager::new`. -/
def CryptoManager.new (passphrase : Option String) : CryptoManager :=
  { passphrase := passphrase, key_cache := [], derivations := 0 }

/-- `CryptoManager::is_encryption_enabled`. -/
def CryptoManager.is_encryption_enabled (cm : CryptoManager) : Bool :=
  cm.passphrase.isSome

/-- A bounded mixing fold used by the executable models of the external
primitives (Argon2, AES-GCM keystream/tag). -/
def foldHash (bs : List Nat) : Nat :=
  bs.foldl (fun a b => (a * 31 + b + 1) % 65536) 7

def strBytes (s : String) : List Nat := s.toList.map Char.toNat

/-- The PHC-string salt character set accepted by
`password_hash::Salt::new` (B64 plus `.` and `-`); note `=` is NOT in
it, so padded base64 text is rejected. -/
def phcSaltChar (c : Char) : Bool :=
  ('A' ≤ c && c ≤ 'Z') || ('a' ≤ c && c ≤ 'z') || ('0' ≤ c && c ≤ '9') ||
  c == '+' || c == '/' || c == '.' || c == '-'

/-- Modelled external primitive: `password_hash::SaltString::from_b64`
(via `Salt::new`): the string must be 4..=64 characters over the PHC
salt charset.  In particular any string containing a `=` padding
character fails. -/
def saltStringFromB64 (s : String) : Option String :=
  if 4 ≤ s.length ∧ s.length ≤ 64 ∧ s.toList.all phcSaltChar then some s
  else none

/-- Unpadded (PHC) B64 decoding of a salt string, as performed inside
`hash_password` by `Salt::decode_b64`: chunks of 4 characters from the
B64 alphabet, a final chunk of 2 or 3 characters with zero trailing
bits, no padding characters. -/
def phcB64DecodeChunks : List Char → Option (List Nat)
  | [] => some []
  | [c1, c2] =>
    match charToSextet c1, charToSextet c2 with
    | some s1, some s2 =>
      if s2 % 16 = 0 then some [s1 * 4 + s2 / 16] else none
    | _, _ => none
  | [c1, c2, c3] =>
    match charToSextet c1, charToSextet c2, charToSextet c3 with
    | some s1, some s2, some s3 =>
      if s3 % 4 = 0 then some [s1 * 4 + s2 / 16, (s2 % 16) * 16 + s3 / 4]
      else none
    | _, _, _ => none
  | c1 :: c2 :: c3 :: c4 :: rest =>
    match charToSextet c1, charToSextet c2, charToSextet c3, charToSextet c4 with
    | some s1, some s2, some s3, some s4 =>
      (phcB64DecodeChunks rest).map
        (fun bs => (s1 * 4 + s2 / 16) :: ((s2 % 16) * 16 + s3 / 4) ::
                   ((s3 % 4) * 64 + s4) :: bs)
    | _, _, _, _ => none
  | _ => none

def phcB64Decode (s : String) : Option (List Nat) :=
  phcB64DecodeChunks s.toList

/-- The raw 32-byte Argon2 hash (`Argon2::default()` output length), a
deterministic function of (passphrase, salt string). -/
def argon2Raw (passphrase salt_string : String) : List Nat :=
  (List.range 32).map
    (fun i => (foldHash (strBytes passphrase ++ [37] ++ strBytes salt_string) + 131 * i) % 256)

/-- Modelled external primitive: `Argon2::hash_password`.  The salt
string is B64-decoded with the unpadded PHC codec (so `=` characters
make it fail) and the decoded salt must be at least 8 bytes
(`Argon2` rejects shorter salts with `SaltTooShort`); on success the
32-byte hash is produced. -/
def argon2HashPassword (passphrase salt_string : String) : Option (List Nat) :=
  match phcB64Decode salt_string with
  | none => none
  | some salt_bytes =>
    if 8 ≤ salt_bytes.length then some (argon2Raw passphrase salt_string)
    else none

/-- Modelled external primitive: byte `i` of the AES-CTR keystream that
AES-GCM XORs over the plaintext, determined by (key, nonce). -/
def keystreamByte (key nonce : List Nat) (i : Nat) : Nat :=
  (foldHash (key ++ [255] ++ nonce) + 97 * i) % 256

/-- XOR a (key, nonce)-determined keystream over a byte string, starting
at keystream position `i`.  Involutive, as in AES-CTR. -/
def streamXor (key nonce : List Nat) (i : Nat) : List Nat → List Nat
  | [] => []
  | b :: rest => (b ^^^ keystreamByte key nonce i) :: streamXor key nonce (i + 1) rest

/-- Modelled external primitive: the 16-byte GCM authentication tag,
determined by (key, nonce, plaintext). -/
def tagBytes (key nonce data : List Nat) : List Nat :=
  (List.range 16).map
    (fun i => (foldHash (key ++ [254] ++ nonce ++ [253] ++ data) + 59 * i) % 256)

/-- Modelled external primitive: `Aes256Gcm::encrypt` — keystream XOR
followed by the appended authentication tag. -/
def aeadEncrypt (key nonce data : List Nat) : List Nat :=
  streamXor key nonce 0 data ++ tagBytes key nonce data

/-- Modelled external primitive: `Aes256Gcm::decrypt` — split off the
16-byte tag, invert the keystream XOR, recompute and verify the tag;
`none` models the library's opaque `aead::Error`. -/
def aeadDecrypt (key nonce ct : List Nat) : Option (List Nat) :=
  if ct.length < 16 then none
  else
    let body := ct.take (ct.length - 16)
    let tag := ct.drop (ct.length - 16)
    let pt := streamXor key nonce 0 body
    if tagBytes key nonce pt = tag then some pt else none

/-- `CryptoManager::derive_key`: cache lookup first; on a miss, require
the passphrase, base64-decode the salt with the padded STANDARD engine,
rebuild a `SaltString` from the re-encoded bytes (this step rejects any
re-encoding containing `=` padding, i.e. any salt whose byte length is
not a multiple of 3), run `hash_password` (which also rejects salts
shorter than 8 decoded bytes), keep the first 32 hash bytes, and cache
the result under the salt's encoded string.  All `hash_password`-level
failures surface as `KeyDerivationFailed`, as in the source's
`map_err`/`ok_or_else` chain. -/
def derive_key (cm : CryptoManager) (salt : String) :
    Except CryptoError (List Nat) × CryptoManager :=
  match cm.key_cache.lookup salt with
  | some cached_key => (.ok cached_key, cm)
  | none =>
    match cm.passphrase with
    | none => (.error .InvalidPassphrase, cm)
    | some passphrase =>
      match base64Decode salt with
      | none => (.error (.KeyDerivationFailed "base64 decode error"), cm)
      | some salt_bytes =>
        match saltStringFromB64 (base64Encode salt_bytes) with
        | none => (.error (.KeyDerivationFailed "salt string error"), cm)
        | some salt_string =>
          match argon2HashPassword passphrase salt_string with
          | none => (.error (.KeyDerivationFailed "argon2 error"), cm)
          | some hash =>
            let key := hash.take 32
            (.ok key,
             { cm with key_cache := (salt, key) :: cm.key_cache,
                       derivations := cm.derivations + 1 })

/-- Outcome of a fallible Rust call that can also panic. -/
inductive RustOutcome (α : Type) where
  | ok (a : α)
  | err (e : CryptoError)
  | panicked
deriving DecidableEq, Repr

/-- `CryptoManager::encrypt`.  The fresh 16-byte salt and 12-byte nonce
drawn from `OsRng` are explicit arguments.  `Key::<Aes256Gcm>::from_slice`
panics unless the derived key has exactly 32 bytes; `cipher.encrypt`'s
error branch (mapped to `EncryptionFailed` in the source) is unreachable
in the AEAD model, which is total. -/
def encrypt (cm : CryptoManager) (saltRand nonceRand data : List Nat) :
    RustOutcome EncryptedData × CryptoManager :=
  if cm.passphrase.isNone then (.err .InvalidPassphrase, cm)
  else
    let salt_b64 := base64Encode saltRand
    match derive_key cm salt_b64 with
    | (.error e, cm') => (.err e, cm')
    | (.ok key_bytes, cm') =>
      if key_bytes.length ≠ 32 then (.panicked, cm')
      else
        let ciphertext := aeadEncrypt key_bytes nonceRand data
        (.ok { salt := salt_b64,
               nonce := base64Encode nonceRand,
               ciphertext := base64Encode ciphertext }, cm')

/-- `CryptoManager::decrypt`.  Key-derivation errors propagate as-is
(the `?` on `derive_key`); nonce/ciphertext base64 failures and tag
failures map to `DecryptionFailed`; `Nonce::from_slice` panics when the
decoded nonce is not exactly 12 bytes. -/
def decrypt (cm : CryptoManager) (ed : EncryptedData) :
    RustOutcome (List Nat) × CryptoManager :=
  if cm.passphrase.isNone then (.err .InvalidPassphrase, cm)
  else
    match derive_key cm ed.salt with
    | (.error e, cm') => (.err e, cm')
    | (.ok key_bytes, cm') =>
      if key_bytes.length ≠ 32 then (.panicked, cm')
      else
        match base64Decode ed.nonce with
        | none => (.err (.DecryptionFailed "base64 decode error"), cm')
        | some nonce_bytes =>
          if nonce_bytes.length ≠ 12 then (.panicked, cm')
          else
            match base64Decode ed.ciphertext with
            | none => (.err (.DecryptionFailed "base64 decode error"), cm')
            | some ciphertext =>
              match aeadDecrypt key_bytes nonce_bytes ciphertext with
              | none => (.err (.DecryptionFailed "aead: tag mismatch"), cm')
              | some plaintext => (.ok plaintext, cm')

/-! ## state.rs: persisted-state data model and its serde encoding -/

/-- `SidecarConfig` of state.rs. -/
structure SidecarConfig where
  theme : String
  auto_approve_read_ops : Bool
  show_notifications : Bool
  terminal_shell : String
  encryption_enabled : Bool
deriving DecidableEq, Repr

/-- `SidecarConfig::default`. -/
def SidecarConfig.default : SidecarConfig :=
  { theme := "dark",
    auto_approve_read_ops := true,
    show_notifications := true,
    terminal_shell := "/bin/bash",
    encryption_enabled := false }

/-- `PendingOperation` of state.rs.  `timestamp` models the
`chrono::DateTime<Utc>` by its serialized RFC 3339 text. -/
structure PendingOperation where
  id : String
  operation_type : String
  payload : Json
  status : String
  timestamp : String
  source : String

/-- `NotificationEvent` of state.rs. -/
structure NotificationEvent where
  id : String
  message : String
  level : String
  timestamp : String
  dismissed : Bool

/-- `PersistedState` of state.rs.  `terminal_sessions` models the
`HashMap<String, serde_json::Value>` as an association list. -/
structure PersistedState where
  config : SidecarConfig
  pending_operations : List PendingOperation
  notifications : List NotificationEvent
  terminal_sessions : List (String × Json)

/-- `PersistedState::default`. -/
def PersistedState.default : PersistedState :=
  { config := SidecarConfig.default,
    pending_operations := [],
    notifications := [],
    terminal_sessions := [] }

/-! serde `Serialize`/`Deserialize` derive semantics: a struct is a JSON
object with one entry per field in declaration order; deserialization
looks fields up by name, fails on a missing or ill-typed field, and
ignores unknown fields. -/

def SidecarConfig.toJson (c : SidecarConfig) : Json :=
  .obj [("theme", .str c.theme),
        ("auto_approve_read_ops", .bool c.auto_approve_read_ops),
        ("show_notifications", .bool c.show_notifications),
        ("terminal_shell", .str c.terminal_shell),
        ("encryption_enabled", .bool c.encryption_enabled)]

def SidecarConfig.fromJson (j : Json) : Option SidecarConfig := do
  let theme ← (← j.getField "theme").asStr
  let aaro ← (← j.getField "auto_approve_read_ops").asBool
  let sn ← (← j.getField "show_notifications").asBool
  let ts ← (← j.getField "terminal_shell").asStr
  let ee ← (← j.getField "encryption_enabled").asBool
  pure ⟨theme, aaro, sn, ts, ee⟩

def PendingOperation.toJson (op : PendingOperation) : Json :=
  .obj [("id", .str op.id),
        ("operation_type", .str op.operation_type),
        ("payload", op.payload),
        ("status", .str op.status),
        ("timestamp", .str op.timestamp),
        ("source", .str op.source)]

def PendingOperation.fromJson (j : Json) : Option PendingOperation := do
  let id ← (← j.getField "id").asStr
  let ty ← (← j.getField "operation_type").asStr
  let payload ← j.getField "payload"
  let status ← (← j.getField "status").asStr
  let timestamp ← (← j.getField "timestamp").asStr
  let source ← (← j.getField "source").asStr
  pure ⟨id, ty, payload, status, timestamp, source⟩

def NotificationEvent.toJson (n : NotificationEvent) : Json :=
  .obj [("id", .str n.id),
        ("message", .str n.message),
        ("level", .str n.level),
        ("timestamp", .str n.timestamp),
        ("dismissed", .bool n.dismissed)]

def NotificationEvent.fromJson (j : Json) : Option NotificationEvent := do
  let id ← (← j.getField "id").asStr
  let message ← (← j.getField "message").asStr
  let level ← (← j.getField "level").asStr
  let timestamp ← (← j.getField "timestamp").asStr
  let dismissed ← (← j.getField "dismissed").asBool
  pure ⟨id, message, level, timestamp, dismissed⟩

def Json.asList (f : Json → Option α) : Json → Option (List α)
  | .arr xs => xs.mapM f
  | _ => none

def Json.asStrMap : Json → Option (List (String × Json))
  | .obj fields => some fields
  | _ => none

def PersistedState.toJson (ps : PersistedState) : Json :=
  .obj [("config", ps.config.toJson),
        ("pending_operations", .arr (ps.pending_operations.map PendingOperation.toJson)),
        ("notifications", .arr (ps.notifications.map NotificationEvent.toJson)),
        ("terminal_sessions", .obj ps.terminal_sessions)]

def PersistedState.fromJson (j : Json) : Option PersistedState := do
  let config ← SidecarConfig.fromJson (← j.getField "config")
  let ops ← Json.asList PendingOperation.fromJson (← j.getField "pending_operations")
  let notifs ← Json.asList NotificationEvent.fromJson (← j.getField "notifications")
  let sessions ← Json.asStrMap (← j.getField "terminal_sessions")
  pure ⟨config, ops, notifs, sessions⟩

def EncryptedData.toJson (ed : EncryptedData) : Json :=
  .obj [("salt", .str ed.salt),
        ("nonce", .str ed.nonce),
        ("ciphertext", .str ed.ciphertext)]

def EncryptedData.fromJson (j : Json) : Option EncryptedData := do
  let salt ← (← j.getField "salt").asStr
  let nonce ← (← j.getField "nonce").asStr
  let ciphertext ← (← j.getField "ciphertext").asStr
  pure ⟨salt, nonce, ciphertext⟩

/-! ## Byte-level serde_json (`to_vec` / `from_slice`), used below the
encryption layer by `encrypt_json` / `decrypt_json`: an injective token
encoding of `Json` with a fueled decoder. -/

def jsonSerialize : Json → List Nat
  | .null => [0]
  | .bool b => [1, cond b 1 0]
  | .num n => [2, if n < 0 then 1 else 0, n.natAbs]
  | .str s => 3 :: s.length :: strBytes s
  | .arr xs => 4 :: xs.length :: (xs.attach.map (fun x => jsonSerialize x.1)).flatten
  | .obj fields =>
      5 :: fields.length ::
      (fields.attach.map
        (fun f => f.1.1.length :: (strBytes f.1.1 ++ jsonSerialize f.1.2))).flatten
decreasing_by
  · have := List.sizeOf_lt_of_mem x.2
    simp only [Json.arr.sizeOf_spec]
    omega
  · have h := List.sizeOf_lt_of_mem f.2
    cases hf : f.1 with
    | mk k v => rw [hf] at h; simp only [Json.obj.sizeOf_spec]; simp at h; omega

def jsonDecodeStr (len : Nat) (bs : List Nat) : Option (String × List Nat) :=
  if len ≤ bs.length then
    some (String.mk ((bs.take len).map Char.ofNat), bs.drop len)
  else none

mutual

def jsonDecode : Nat → List Nat → Option (Json × List Nat)
  | 0, _ => none
  | _ + 1, 0 :: rest => some (.null, rest)
  | _ + 1, 1 :: b :: rest => some (.bool (b == 1), rest)
  | _ + 1, 2 :: sgn :: m :: rest =>
      some (.num (if sgn == 1 then -(m : Int) else (m : Int)), rest)
  | _ + 1, 3 :: len :: rest => (jsonDecodeStr len rest).map (fun p => (.str p.1, p.2))
  | fuel + 1, 4 :: len :: rest =>
      (jsonDecodeArr fuel len rest).map (fun p => (.arr p.1, p.2))
  | fuel + 1, 5 :: len :: rest =>
      (jsonDecodeObj fuel len rest).map (fun p => (.obj p.1, p.2))
  | _ + 1, _ => none

def jsonDecodeArr : Nat → Nat → List Nat → Option (List Json × List Nat)
  | _, 0, bs => some ([], bs)
  | 0, _ + 1, _ => none
  | fuel + 1, n + 1, bs => do
    let (j, r) ← jsonDecode fuel bs
    let (js, r') ← jsonDecodeArr fuel n r
    pure (j :: js, r')

def jsonDecodeObj : Nat → Nat → List Nat → Option (List (String × Json) × List Nat)
  | _, 0, bs => some ([], bs)
  | 0, _ + 1, _ => none
  | fuel + 1, n + 1, klen :: rest => do
    let (k, r) ← jsonDecodeStr klen rest
    let (v, r') ← jsonDecode fuel r
    let (fields, r'') ← jsonDecodeObj fuel n r'
    pure ((k, v) :: fields, r'')
  | _ + 1, _ + 1, [] => none

end

def jsonDeserialize (bs : List Nat) : Option Json :=
  match jsonDecode (bs.length + 1) bs with
  | some (j, []) => some j
  | _ => none

/-! ## state.rs: `AppState` and its operations -/

/-- `Box<dyn std::error::Error>` as observed by state.rs: the crypto
errors, serde_json parse errors, and I/O errors it can box. -/
inductive BoxError where
  | crypto (e : CryptoError)
  | serde (msg : String)
  | io (msg : String)
deriving DecidableEq, Repr

/-- `AppState` of state.rs (the `state_file` path and `app_handle` are
abstracted: the file is threaded explicitly, event emission has no
effect on state or file). -/
structure AppState where
  config : SidecarConfig
  pending_operations : List PendingOperation
  notifications : List NotificationEvent
  terminal_sessions : List (String × Json)
  crypto : CryptoManager

/-- Environment data for one operation: the `OsRng` draws a contained
`encrypt` call would make, and whether `std::fs::write` succeeds. -/
structure Env where
  saltRand : List Nat
  nonceRand : List Nat
  writeOk : Bool

inductive LoadResult where
  | ok
  | err (e : BoxError)
  | panicked
deriving DecidableEq, Repr

inductive SaveResult where
  | ok
  | err (e : BoxError)
  | panicked
deriving DecidableEq, Repr

/-- `AppState::load_state`: missing file is success with state untouched;
otherwise, with encryption enabled, parse the envelope, `decrypt_json`
(decrypt, then deserialize — deserialization failures surface as
`CryptoError::SerializationError` via `#[from]`), and assign the four
fields; with encryption disabled, parse `PersistedState` directly. -/
def load_state (st : AppState) (fs : Option Json) : LoadResult × AppState :=
  match fs with
  | none => (.ok, st)
  | some content =>
    if st.crypto.is_encryption_enabled then
      match EncryptedData.fromJson content with
      | none => (.err (.serde "invalid envelope json"), st)
      | some ed =>
        match decrypt st.crypto ed with
        | (.panicked, cm') => (.panicked, { st with crypto := cm' })
        | (.err e, cm') => (.err (.crypto e), { st with crypto := cm' })
        | (.ok bytes, cm') =>
          match jsonDeserialize bytes with
          | none =>
              (.err (.crypto (.SerializationError "from_slice error")),
               { st with crypto := cm' })
          | some j =>
            match PersistedState.fromJson j with
            | none =>
                (.err (.crypto (.SerializationError "from_slice error")),
                 { st with crypto := cm' })
            | some ps =>
              (.ok, { config := ps.config,
                      pending_operations := ps.pending_operations,
                      notifications := ps.notifications,
                      terminal_sessions := ps.terminal_sessions,
                      crypto := cm' })
    else
      match PersistedState.fromJson content with
      | none => (.err (.serde "invalid state json"), st)
      | some ps =>
        (.ok, { st with config := ps.config,
                        pending_operations := ps.pending_operations,
                        notifications := ps.notifications,
                        terminal_sessions := ps.terminal_sessions })

/-- `AppState::save_state`: snapshot the four fields; with encryption
enabled, `encrypt_json` the snapshot and write the envelope's JSON as
the whole file; otherwise write the snapshot's JSON; the file is
replaced wholesale, and on any failure it is left as it was. -/
def save_state (st : AppState) (fs : Option Json) (env : Env) :
    SaveResult × AppState × Option Json :=
  let ps : PersistedState :=
    { config := st.config,
      pending_operations := st.pending_operations,
      notifications := st.notifications,
      terminal_sessions := st.terminal_sessions }
  if st.crypto.is_encryption_enabled then
    match encrypt st.crypto env.saltRand env.nonceRand (jsonSerialize ps.toJson) with
    | (.ok ed, cm') =>
      if env.writeOk then (.ok, { st with crypto := cm' }, some ed.toJson)
      else (.err (.io "write failed"), { st with crypto := cm' }, fs)
    | (.err e, cm') => (.err (.crypto e), { st with crypto := cm' }, fs)
    | (.panicked, cm') => (.panicked, { st with crypto := cm' }, fs)
  else
    if env.writeOk then (.ok, st, some ps.toJson)
    else (.err (.io "write failed"), st, fs)

/-- `AppState::add_operation`: push the new pending operation, emit the
frontend event (no state effect), auto-save (the save error is only
logged), and return the fresh id unconditionally. -/
def add_operation (st : AppState) (fs : Option Json) (env : Env)
    (operation_type : String) (payload : Json) (source : String)
    (uuid timestamp : String) :
    String × AppState × Option Json × SaveResult :=
  let op : PendingOperation :=
    { id := uuid, operation_type := operation_type, payload := payload,
      status := "pending", timestamp := timestamp, source := source }
  let st1 := { st with pending_operations := st.pending_operations ++ [op] }
  match save_state st1 fs env with
  | (res, st2, fs') => (uuid, st2, fs', res)

/-- `AppState::add_notification`: push the new notification, emit the
frontend event (no state effect), auto-save (the save error is only
logged). -/
def add_notification (st : AppState) (fs : Option Json) (env : Env)
    (message level : String) (uuid timestamp : String) :
    AppState × Option Json × SaveResult :=
  let n : NotificationEvent :=
    { id := uuid, message := message, level := level,
      timestamp := timestamp, dismissed := false }
  let st1 := { st with notifications := st.notifications ++ [n] }
  match save_state st1 fs env with
  | (res, st2, fs') => (st2, fs', res)

inductive NewOutcome where
  | ok (st : AppState) (fs : Option Json)
  | panicked

/-- `AppState::new`: build the default in-memory state with a
`CryptoManager` holding the startup passphrase, try `load_state`, and on
a load error log a warning and `add_notification` (whose auto-save
rewrites the state file).  Directory creation and path resolution are
abstracted as succeeding; a panic anywhere propagates. -/
def freshAppState (passphrase : Option String) : AppState :=
  { config := SidecarConfig.default,
    pending_operations := [],
    notifications := [],
    terminal_sessions := [],
    crypto := CryptoManager.new passphrase }

def AppState.new (passphrase : Option String) (fs : Option Json) (env : Env)
    (uuid timestamp : String) : NewOutcome :=
  match load_state (freshAppState passphrase) fs with
  | (.ok, st1) => .ok st1 fs
  | (.panicked, _) => .panicked
  | (.err _, st1) =>
    match add_notification st1 fs env "Failed to load persisted state" "warning"
        uuid timestamp with
    | (_, _, .panicked) => .panicked
    | (st2, fs', _) => .ok st2 fs'

/-! ## Helper lemmas: base64 -/

theorem charToSextet_sextetToChar {n : Nat} (h : n < 64) :
    charToSextet (sextetToChar n) = some n := by
  have H : ∀ m : Fin 64, charToSextet (sextetToChar m.1) = some m.1 := by decide
  exact H ⟨n, h⟩

theorem sextetToChar_ne_pad {n : Nat} (h : n < 64) : sextetToChar n ≠ '=' := by
  have H : ∀ m : Fin 64, sextetToChar m.1 ≠ '=' := by decide
  exact H ⟨n, h⟩

theorem base64EncodeChunks_length (bs : List Nat) :
    (base64EncodeChunks bs).length = 4 * ((bs.length + 2) / 3) := by
  induction bs using base64EncodeChunks.induct with
  | case1 a b c rest ih =>
    simp only [base64EncodeChunks, List.length_cons, ih]
    omega
  | case2 a b => simp [base64EncodeChunks]
  | case3 a => simp [base64EncodeChunks]
  | case4 => simp [base64EncodeChunks]

theorem base64DecodeChunks_encode (bs : List Nat) (h : ∀ b ∈ bs, b < 256) :
    base64DecodeChunks (base64EncodeChunks bs) = some bs := by
  induction bs using base64EncodeChunks.induct with
  | case1 a b c rest ih =>
    have ha : a < 256 := h a (by simp)
    have hb : b < 256 := h b (by simp)
    have hc : c < 256 := h c (by simp)
    have ih' := ih (fun x hx => h x (by simp [hx]))
    have e1 : (a / 4) * 4 + ((a % 4) * 16 + b / 16) / 16 = a := by omega
    have e2 : (((a % 4) * 16 + b / 16) % 16) * 16 + ((b % 16) * 4 + c / 64) / 4 = b := by
      omega
    have e3 : (((b % 16) * 4 + c / 64) % 4) * 64 + c % 64 = c := by omega
    simp only [base64EncodeChunks, base64DecodeChunks,
      charToSextet_sextetToChar (show a / 4 < 64 by omega),
      charToSextet_sextetToChar (show (a % 4) * 16 + b / 16 < 64 by omega),
      charToSextet_sextetToChar (show (b % 16) * 4 + c / 64 < 64 by omega),
      charToSextet_sextetToChar (show c % 64 < 64 by omega),
      if_neg (sextetToChar_ne_pad (show (b % 16) * 4 + c / 64 < 64 by omega)),
      if_neg (sextetToChar_ne_pad (show c % 64 < 64 by omega)),
      ih', e1, e2, e3]
    rfl
  | case2 a b =>
    have ha : a < 256 := h a (by simp)
    have hb : b < 256 := h b (by simp)
    have e1 : (a / 4) * 4 + ((a % 4) * 16 + b / 16) / 16 = a := by omega
    have e2 : (((a % 4) * 16 + b / 16) % 16) * 16 + ((b % 16) * 4) / 4 = b := by omega
    simp only [base64EncodeChunks, base64DecodeChunks,
      charToSextet_sextetToChar (show a / 4 < 64 by omega),
      charToSextet_sextetToChar (show (a % 4) * 16 + b / 16 < 64 by omega),
      if_neg (sextetToChar_ne_pad (show (b % 16) * 4 < 64 by omega)),
      charToSextet_sextetToChar (show (b % 16) * 4 < 64 by omega)]
    have h4 : b % 16 * 4 % 4 = 0 := by omega
    simp [h4, e1, e2]
    omega
  | case3 a =>
    have ha : a < 256 := h a (by simp)
    have e1 : (a / 4) * 4 + ((a % 4) * 16) / 16 = a := by omega
    simp only [base64EncodeChunks, base64DecodeChunks,
      charToSextet_sextetToChar (show a / 4 < 64 by omega),
      charToSextet_sextetToChar (show (a % 4) * 16 < 64 by omega)]
    have h16 : a % 4 * 16 % 16 = 0 := by omega
    simp [h16, e1]
    omega
  | case4 => rfl

theorem base64Decode_encode (bs : List Nat) (h : ∀ b ∈ bs, b < 256) :
    base64Decode (base64Encode bs) = some bs :=
  base64DecodeChunks_encode bs h

theorem base64Encode_strLength (bs : List Nat) :
    (base64Encode bs).length = 4 * ((bs.length + 2) / 3) := by
  show (String.mk (base64EncodeChunks bs)).length = _
  simpa [String.length] using base64EncodeChunks_length bs

/-! ## Helper lemmas: modelled AEAD -/

theorem byte_xor_lt {a b : Nat} (ha : a < 256) (hb : b < 256) : a ^^^ b < 256 := by
  have h : a ^^^ b < 2 ^ 8 := Nat.xor_lt_two_pow (by norm_num; omega) (by norm_num; omega)
  norm_num at h
  exact h

theorem keystreamByte_lt (key nonce : List Nat) (i : Nat) :
    keystreamByte key nonce i < 256 :=
  Nat.mod_lt _ (by norm_num)

theorem streamXor_length (key nonce : List Nat) (i : Nat) (l : List Nat) :
    (streamXor key nonce i l).length = l.length := by
  induction l generalizing i with
  | nil => rfl
  | cons b rest ih => simp [streamXor, ih]

theorem streamXor_streamXor (key nonce : List Nat) (i : Nat) (l : List Nat) :
    streamXor key nonce i (streamXor key nonce i l) = l := by
  induction l generalizing i with
  | nil => rfl
  | cons b rest ih => simp [streamXor, ih, Nat.xor_cancel_right]

theorem streamXor_lt (key nonce : List Nat) (i : Nat) (l : List Nat)
    (h : ∀ b ∈ l, b < 256) : ∀ b ∈ streamXor key nonce i l, b < 256 := by
  induction l generalizing i with
  | nil => simp [streamXor]
  | cons b rest ih =>
    intro x hx
    simp only [streamXor, List.mem_cons] at hx
    rcases hx with h1 | h2
    · subst h1
      exact byte_xor_lt (h b (by simp)) (keystreamByte_lt key nonce i)
    · exact ih (i + 1) (fun y hy => h y (by simp [hy])) x h2

theorem tagBytes_length (key nonce data : List Nat) :
    (tagBytes key nonce data).length = 16 := by
  simp [tagBytes]

theorem tagBytes_lt (key nonce data : List Nat) :
    ∀ b ∈ tagBytes key nonce data, b < 256 := by
  intro b hb
  simp only [tagBytes, List.mem_map] at hb
  obtain ⟨i, _, hi⟩ := hb
  omega

theorem aeadEncrypt_lt (key nonce data : List Nat) (h : ∀ b ∈ data, b < 256) :
    ∀ b ∈ aeadEncrypt key nonce data, b < 256 := by
  intro b hb
  simp only [aeadEncrypt, List.mem_append] at hb
  rcases hb with h1 | h2
  · exact streamXor_lt key nonce 0 data h b h1
  · exact tagBytes_lt key nonce data b h2

theorem aeadDecrypt_aeadEncrypt (key nonce data : List Nat) :
    aeadDecrypt key nonce (aeadEncrypt key nonce data) = some data := by
  have hlen : (streamXor key nonce 0 data).length = data.length :=
    streamXor_length key nonce 0 data
  have hct : (aeadEncrypt key nonce data).length = data.length + 16 := by
    simp [aeadEncrypt, hlen, tagBytes_length]
  have hsub : (aeadEncrypt key nonce data).length - 16 = (streamXor key nonce 0 data).length := by
    omega
  unfold aeadDecrypt
  rw [if_neg (by omega)]
  show (if _ = _ then some _ else none) = _
  rw [show aeadEncrypt key nonce data =
        streamXor key nonce 0 data ++ tagBytes key nonce data from rfl] at hsub ⊢
  rw [hsub, List.take_left, List.drop_left, streamXor_streamXor, if_pos rfl]

/-! ## Helper lemmas: key derivation and its cache -/

/-- Invariant of every reachable `CryptoManager`: all cached keys are
32 bytes (they are produced by `[..32].to_vec()` in `derive_key`). -/
def cacheWF (cm : CryptoManager) : Prop :=
  ∀ s v, cm.key_cache.lookup s = some v → v.length = 32

theorem cacheWF_new (pp : Option String) : cacheWF (CryptoManager.new pp) := by
  intro s v h
  simp [CryptoManager.new] at h

theorem argon2Raw_length (p s : String) : (argon2Raw p s).length = 32 := by
  simp [argon2Raw]

theorem argon2HashPassword_length {p s : String} {h : List Nat}
    (hh : argon2HashPassword p s = some h) : h.length = 32 := by
  unfold argon2HashPassword at hh
  split at hh
  · cases hh
  · split at hh
    · cases hh
      exact argon2Raw_length p s
    · cases hh

theorem derive_key_cache_hit {cm : CryptoManager} {salt : String} {k : List Nat}
    (h : cm.key_cache.lookup salt = some k) : derive_key cm salt = (.ok k, cm) := by
  unfold derive_key
  rw [h]

theorem derive_key_inserts {cm cm' : CryptoManager} {salt : String} {k : List Nat}
    (h : derive_key cm salt = (.ok k, cm')) : cm'.key_cache.lookup salt = some k := by
  unfold derive_key at h
  split at h
  · next v hv =>
    obtain ⟨h1, h2⟩ := Prod.mk.injEq .. ▸ h
    cases h1
    cases h2
    simpa using hv
  · next hmiss =>
    split at h
    · cases h
    · next pw =>
      split at h
      · cases h
      · split at h
        · cases h
        · split at h
          · cases h
          · simp only [Prod.mk.injEq, Except.ok.injEq] at h
            obtain ⟨h1, h2⟩ := h
            cases h1
            cases h2
            simp [List.lookup]

theorem derive_key_length {cm cm' : CryptoManager} {salt : String} {k : List Nat}
    (hwf : cacheWF cm) (h : derive_key cm salt = (.ok k, cm')) : k.length = 32 := by
  unfold derive_key at h
  split at h
  · next v hv =>
    simp only [Prod.mk.injEq, Except.ok.injEq] at h
    obtain ⟨h1, _⟩ := h
    cases h1
    exact hwf _ _ hv
  · split at h
    · cases h
    · split at h
      · cases h
      · split at h
        · cases h
        · split at h
          · cases h
          · next hash hh =>
            simp only [Prod.mk.injEq, Except.ok.injEq] at h
            obtain ⟨h1, _⟩ := h
            cases h1
            simp [argon2HashPassword_length hh]

theorem derive_key_cacheWF {cm cm' : CryptoManager} {salt : String}
    {r : Except CryptoError (List Nat)}
    (hwf : cacheWF cm) (h : derive_key cm salt = (r, cm')) : cacheWF cm' := by
  unfold derive_key at h
  split at h
  · next v hv =>
    obtain ⟨_, h2⟩ := Prod.mk.injEq .. ▸ h
    cases h2
    exact hwf
  · split at h
    · obtain ⟨_, h2⟩ := Prod.mk.injEq .. ▸ h
      cases h2
      exact hwf
    · split at h
      · obtain ⟨_, h2⟩ := Prod.mk.injEq .. ▸ h
        cases h2
        exact hwf
      · split at h
        · obtain ⟨_, h2⟩ := Prod.mk.injEq .. ▸ h
          cases h2
          exact hwf
        · split at h
          · obtain ⟨_, h2⟩ := Prod.mk.injEq .. ▸ h
            cases h2
            exact hwf
          · next hash hh =>
            obtain ⟨_, h2⟩ := Prod.mk.injEq .. ▸ h
            cases h2
            intro s v hv
            simp only [List.lookup] at hv
            by_cases hs : s == salt
            · rw [hs] at hv
              simp at hv
              cases hv
              simp [argon2HashPassword_length hh]
            · rw [Bool.not_eq_true] at hs
              rw [hs] at hv
              exact hwf s v hv

theorem derive_key_passphrase (cm : CryptoManager) (salt : String) :
    (derive_key cm salt).2.passphrase = cm.passphrase := by
  unfold derive_key
  (repeat' split) <;> rfl

/-! ## Helper lemmas: padded salts are rejected by key derivation -/

theorem charToSextet_pad : charToSextet '=' = none := by decide

/-- A successful STANDARD base64 decode of text containing a `=`
consumes the padding in a final short chunk, so the decoded byte length
is not a multiple of 3. -/
theorem decodeChunks_pad_mod3 (l : List Char) :
    ∀ bs, base64DecodeChunks l = some bs → '=' ∈ l → bs.length % 3 ≠ 0 := by
  induction l using base64DecodeChunks.induct with
  | case6 c1 c2 c3 c4 rest s1 s2 h2 h1 hne3 s3 h3 hne4 s4 h4 ih =>
    intro bs h hm
    simp only [base64DecodeChunks, h1, h2, h3, h4, if_neg hne3, if_neg hne4] at h
    cases hr : base64DecodeChunks rest with
    | none => rw [hr] at h; cases h
    | some bs2 =>
      rw [hr] at h
      have hb : (s1 * 4 + s2 / 16) :: ((s2 % 16) * 16 + s3 / 4) ::
          ((s3 % 4) * 64 + s4) :: bs2 = bs := by simpa using h
      have hm2 : '=' ∈ rest := by
        rcases List.mem_cons.mp hm with h5 | hm2
        · subst h5; rw [charToSextet_pad] at h1; cases h1
        · rcases List.mem_cons.mp hm2 with h5 | hm3
          · subst h5; rw [charToSextet_pad] at h2; cases h2
          · rcases List.mem_cons.mp hm3 with h5 | hm4
            · subst h5; rw [charToSextet_pad] at h3; cases h3
            · rcases List.mem_cons.mp hm4 with h5 | hm5
              · subst h5; rw [charToSextet_pad] at h4; cases h4
              · exact hm5
      have hih := ih bs2 hr hm2
      rw [← hb]
      simp only [List.length_cons]
      omega
  | _ =>
    intro bs h hm
    simp_all [base64DecodeChunks]
    try (cases h; simp)

/-- Encoding a byte string whose length is not a multiple of 3 always
emits a `=` padding character. -/
theorem encodeChunks_pad_mem (bs : List Nat) (h : bs.length % 3 ≠ 0) :
    '=' ∈ base64EncodeChunks bs := by
  induction bs using base64EncodeChunks.induct with
  | case1 a b c rest ih =>
    have hr : rest.length % 3 ≠ 0 := by
      simp only [List.length_cons] at h
      omega
    simp only [base64EncodeChunks, List.mem_cons]
    exact Or.inr (Or.inr (Or.inr (Or.inr (ih hr))))
  | case2 a b => simp [base64EncodeChunks]
  | case3 a => simp [base64EncodeChunks]
  | case4 => simp at h

/-- Any string containing a `=` fails the PHC salt validation. -/
theorem saltStringFromB64_pad {s : String} (h : '=' ∈ s.toList) :
    saltStringFromB64 s = none := by
  unfold saltStringFromB64
  rw [if_neg]
  rintro ⟨-, -, h3⟩
  have := List.all_eq_true.mp h3 '=' h
  exact absurd this (by decide)

/-- Invariant of every reachable `CryptoManager`: no cached salt string
contains a `=` padding character (padded salts never pass `derive_key`'s
validation, so they are never inserted into the cache). -/
def cacheNoPad (cm : CryptoManager) : Prop :=
  ∀ p ∈ cm.key_cache, '=' ∉ p.1.toList

theorem cacheNoPad_new (pp : Option String) : cacheNoPad (CryptoManager.new pp) := by
  intro p hp
  simp [CryptoManager.new] at hp

theorem derive_key_cacheNoPad {cm cm' : CryptoManager} {salt : String}
    {r : Except CryptoError (List Nat)}
    (hnp : cacheNoPad cm) (h : derive_key cm salt = (r, cm')) : cacheNoPad cm' := by
  unfold derive_key at h
  split at h
  · obtain ⟨-, h2⟩ := Prod.mk.injEq .. ▸ h
    cases h2
    exact hnp
  · split at h
    · obtain ⟨-, h2⟩ := Prod.mk.injEq .. ▸ h
      cases h2
      exact hnp
    · split at h
      · obtain ⟨-, h2⟩ := Prod.mk.injEq .. ▸ h
        cases h2
        exact hnp
      · next salt_bytes hsd =>
        split at h
        · obtain ⟨-, h2⟩ := Prod.mk.injEq .. ▸ h
          cases h2
          exact hnp
        · next salt_string hss =>
          split at h
          · obtain ⟨-, h2⟩ := Prod.mk.injEq .. ▸ h
            cases h2
            exact hnp
          · obtain ⟨-, h2⟩ := Prod.mk.injEq .. ▸ h
            cases h2
            intro p hp
            rcases List.mem_cons.mp hp with h5 | hmem
            · subst h5
              intro hpad
              have hmod : salt_bytes.length % 3 ≠ 0 :=
                decodeChunks_pad_mod3 salt.toList salt_bytes hsd hpad
              have hpe : '=' ∈ base64EncodeChunks salt_bytes :=
                encodeChunks_pad_mem _ hmod
              have hnone : saltStringFromB64 (base64Encode salt_bytes) = none :=
                saltStringFromB64_pad hpe
              rw [hnone] at hss
              cases hss
            · exact hnp p hmem

/-- Looking up a padded salt in a pad-free cache always misses. -/
theorem lookup_pad_miss_list (l : List (String × List Nat)) (salt : String)
    (hnp : ∀ p ∈ l, '=' ∉ p.1.toList) (hpad : '=' ∈ salt.toList) :
    l.lookup salt = none := by
  induction l with
  | nil => rfl
  | cons p rest ih =>
    obtain ⟨k, v⟩ := p
    simp only [List.lookup]
    cases hb : salt == k with
    | true =>
      have hk : salt = k := eq_of_beq hb
      exact ((hnp (k, v) (by simp)) (hk ▸ hpad)).elim
    | false =>
      exact ih (fun q hq => hnp q (by simp [hq]))

/-- `encrypt` never succeeds: the fresh 16-byte salt's padded STANDARD
encoding ends in `==`, which the PHC salt validation inside
`derive_key` rejects, so every call fails with `KeyDerivationFailed`
and leaves the manager unchanged. -/
theorem encrypt_padded_salt_fails {cm : CryptoManager} {pw : String}
    (hpp : cm.passphrase = some pw) (hnp : cacheNoPad cm)
    (saltR nonceR data : List Nat)
    (h16 : saltR.length = 16) (hsb : ∀ b ∈ saltR, b < 256) :
    encrypt cm saltR nonceR data =
      (.err (.KeyDerivationFailed "salt string error"), cm) := by
  have hpad : '=' ∈ (base64Encode saltR).toList :=
    encodeChunks_pad_mem saltR (by omega)
  have hmiss := lookup_pad_miss_list cm.key_cache (base64Encode saltR) hnp hpad
  have hd : derive_key cm (base64Encode saltR) =
      (.error (.KeyDerivationFailed "salt string error"), cm) := by
    unfold derive_key
    simp only [hmiss, hpp, base64Decode_encode saltR hsb,
      saltStringFromB64_pad hpad]
  unfold encrypt
  rw [hpp]
  simp only [Option.isNone_some, Bool.false_eq_true, if_false, hd]

/-! ## Helper lemmas: serde shape mismatches -/

/-- A serialized `PersistedState` has no `salt` field, so parsing it as
an envelope fails. -/
theorem envelope_fromJson_state (ps : PersistedState) :
    EncryptedData.fromJson ps.toJson = none := rfl

/-- A serialized envelope has no `config` field, so parsing it as a
`PersistedState` fails. -/
theorem state_fromJson_envelope (ed : EncryptedData) :
    PersistedState.fromJson ed.toJson = none := rfl

/-! ## Claim theorems: crypto layer -/

/-- Unfolding of `decrypt` under a configured passphrase. -/
theorem decrypt_eq {cm : CryptoManager} {pw : String} (ed : EncryptedData)
    (hpp : cm.passphrase = some pw) :
    decrypt cm ed =
      (match derive_key cm ed.salt with
        | (.error e, cm') => (.err e, cm')
        | (.ok key_bytes, cm') =>
          if key_bytes.length ≠ 32 then (.panicked, cm')
          else
            match base64Decode ed.nonce with
            | none => (.err (.DecryptionFailed "base64 decode error"), cm')
            | some nonce_bytes =>
              if nonce_bytes.length ≠ 12 then (.panicked, cm')
              else
                match base64Decode ed.ciphertext with
                | none => (.err (.DecryptionFailed "base64 decode error"), cm')
                | some ciphertext =>
                  match aeadDecrypt key_bytes nonce_bytes ciphertext with
                  | none => (.err (.DecryptionFailed "aead: tag mismatch"), cm')
                  | some plaintext => (.ok plaintext, cm')) := by
  unfold decrypt
  rw [hpp]
  rfl

/-- Discriminator: is the outcome a `DecryptionFailed` error? -/
def isDecryptionFailedResult : RustOutcome (List Nat) → Bool
  | .err (.DecryptionFailed _) => true
  | _ => false

/-- C1 counterexample: with passphrase "p" configured, an envelope whose
salt "!" is not valid base64 makes `decrypt` return `KeyDerivationFailed`
(propagated from `derive_key` by `?`), not `DecryptionFailed` as the
claim states. -/
theorem c1_counterexample :
    (decrypt (CryptoManager.new (some "p")) ⟨"!", "x", "y"⟩).1
      = .err (.KeyDerivationFailed "base64 decode error") ∧
    isDecryptionFailedResult
      (decrypt (CryptoManager.new (some "p")) ⟨"!", "x", "y"⟩).1 = false :=
  ⟨rfl, rfl⟩

/-- C1 (amended): with a passphrase configured and the envelope's salt not
already cached, every failing stage of `decrypt` yields an error or a
panic and never partial plaintext: salt-decode and salt-validation
failures yield `KeyDerivationFailed`; a nonce or ciphertext that fails
base64 decoding, and a failing tag verification, yield
`DecryptionFailed`; a nonce decoding to a length other than 12 panics;
and plaintext is returned only when every stage succeeded, in which case
it is the complete verified AEAD plaintext. -/
theorem c1_amended_decrypt_failure_modes (cm : CryptoManager) (ed : EncryptedData)
    (pw : String) (hpp : cm.passphrase = some pw) (hwf : cacheWF cm)
    (hmiss : cm.key_cache.lookup ed.salt = none) :
    (base64Decode ed.salt = none →
      (decrypt cm ed).1 = .err (.KeyDerivationFailed "base64 decode error")) ∧
    (∀ sb, base64Decode ed.salt = some sb →
      saltStringFromB64 (base64Encode sb) = none →
      (decrypt cm ed).1 = .err (.KeyDerivationFailed "salt string error")) ∧
    (∀ k cm', derive_key cm ed.salt = (.ok k, cm') →
      base64Decode ed.nonce = none →
      (decrypt cm ed).1 = .err (.DecryptionFailed "base64 decode error")) ∧
    (∀ k cm' nb, derive_key cm ed.salt = (.ok k, cm') →
      base64Decode ed.nonce = some nb → nb.length ≠ 12 →
      (decrypt cm ed).1 = .panicked) ∧
    (∀ k cm' nb, derive_key cm ed.salt = (.ok k, cm') →
      base64Decode ed.nonce = some nb → nb.length = 12 →
      base64Decode ed.ciphertext = none →
      (decrypt cm ed).1 = .err (.DecryptionFailed "base64 decode error")) ∧
    (∀ k cm' nb ct, derive_key cm ed.salt = (.ok k, cm') →
      base64Decode ed.nonce = some nb → nb.length = 12 →
      base64Decode ed.ciphertext = some ct →
      aeadDecrypt k nb ct = none →
      (decrypt cm ed).1 = .err (.DecryptionFailed "aead: tag mismatch")) ∧
    (∀ pt, (decrypt cm ed).1 = .ok pt →
      ∃ k cm' nb ct, derive_key cm ed.salt = (.ok k, cm') ∧
        base64Decode ed.nonce = some nb ∧ base64Decode ed.ciphertext = some ct ∧
        aeadDecrypt k nb ct = some pt) := by
  refine ⟨?_, ?_, ?_, ?_, ?_, ?_, ?_⟩
  · intro hsd
    have hd : derive_key cm ed.salt =
        (.error (.KeyDerivationFailed "base64 decode error"), cm) := by
      unfold derive_key
      simp only [hmiss, hpp, hsd]
    simp only [decrypt_eq ed hpp, hd]
  · intro sb hsd hss
    have hd : derive_key cm ed.salt =
        (.error (.KeyDerivationFailed "salt string error"), cm) := by
      unfold derive_key
      simp only [hmiss, hpp, hsd, hss]
    simp only [decrypt_eq ed hpp, hd]
  · intro k cm' hd hnd
    have hk := derive_key_length hwf hd
    simp only [decrypt_eq ed hpp, hd, hnd]
    rw [if_neg (by omega)]
  · intro k cm' nb hd hnd hl
    have hk := derive_key_length hwf hd
    simp only [decrypt_eq ed hpp, hd, hnd]
    rw [if_neg (by omega), if_pos hl]
  · intro k cm' nb hd hnd hl hct
    have hk := derive_key_length hwf hd
    simp only [decrypt_eq ed hpp, hd, hnd, hct]
    rw [if_neg (by omega), if_neg (by omega)]
  · intro k cm' nb ct hd hnd hl hct had
    have hk := derive_key_length hwf hd
    simp only [decrypt_eq ed hpp, hd, hnd, hct, had]
    rw [if_neg (by omega), if_neg (by omega)]
  · intro pt hpt
    rw [decrypt_eq ed hpp] at hpt
    cases hd : derive_key cm ed.salt with
    | mk r cm' =>
      cases r with
      | error e => simp only [hd] at hpt; simp at hpt
      | ok k =>
        have hk := derive_key_length hwf hd
        simp only [hd] at hpt
        rw [if_neg (by omega)] at hpt
        cases hnd : base64Decode ed.nonce with
        | none => simp only [hnd] at hpt; simp at hpt
        | some nb =>
          simp only [hnd] at hpt
          by_cases hl : nb.length = 12
          · rw [if_neg (by omega)] at hpt
            cases hct : base64Decode ed.ciphertext with
            | none => simp only [hct] at hpt; simp at hpt
            | some ct =>
              simp only [hct] at hpt
              cases had : aeadDecrypt k nb ct with
              | none => simp only [had] at hpt; simp at hpt
              | some pt' =>
                simp only [had] at hpt
                simp at hpt
                exact ⟨k, cm', nb, ct, rfl, rfl, rfl, by rw [had, hpt]⟩
          · rw [if_pos hl] at hpt
            simp at hpt

/-- C1 amended, witness at a concrete input: passphrase "p", envelope
with undecodable salt "!" yields `KeyDerivationFailed`. -/
theorem c1_amended_witness :
    ((CryptoManager.new (some "p")).passphrase = some "p" ∧
     cacheWF (CryptoManager.new (some "p")) ∧
     (CryptoManager.new (some "p")).key_cache.lookup "!" = none ∧
     base64Decode "!" = none) ∧
    (decrypt (CryptoManager.new (some "p")) ⟨"!", "x", "y"⟩).1
      = .err (.KeyDerivationFailed "base64 decode error") :=
  ⟨⟨rfl, cacheWF_new _, rfl, rfl⟩,
   (c1_amended_decrypt_failure_modes (CryptoManager.new (some "p"))
      ⟨"!", "x", "y"⟩ "p" rfl (cacheWF_new _) rfl).1 rfl⟩

/-- C2 (code bug): the round trip never gets started, because `encrypt`
never succeeds.  `encrypt` draws a fresh 16-byte salt and base64-encodes
it with the padded `STANDARD` engine, so the encoding always ends in
`==`; `derive_key` then feeds that padded text to
`SaltString::from_b64`, whose PHC salt validation rejects `=`, and the
whole call fails with `KeyDerivationFailed`.  Evaluated here at the
repository's own test input (passphrase "test_passphrase", payload
"Hello, encrypted world!", an all-zero salt/nonce draw), contradicting
the test `test_encrypt_decrypt_cycle` which unwraps `encrypt`. -/
theorem c2_roundtrip_code_bug :
    (encrypt (CryptoManager.new (some "test_passphrase"))
        [0, 0, 0, 0, 0, 0, 0, 0, 0, 0, 0, 0, 0, 0, 0, 0]
        [0, 0, 0, 0, 0, 0, 0, 0, 0, 0, 0, 0]
        (strBytes "Hello, encrypted world!")).1
      = .err (.KeyDerivationFailed "salt string error") := rfl

/-- C4: with no passphrase configured, `encrypt` and `decrypt` fail with
`InvalidPassphrase` for every input. -/
theorem c4_no_passphrase_invalid (cm : CryptoManager)
    (saltR nonceR data : List Nat) (ed : EncryptedData)
    (h : cm.passphrase = none) :
    (encrypt cm saltR nonceR data).1 = .err .InvalidPassphrase ∧
    (decrypt cm ed).1 = .err .InvalidPassphrase := by
  unfold encrypt decrypt
  rw [h]
  simp

/-- C4 witness at a concrete manager and inputs. -/
theorem c4_witness :
    (CryptoManager.new none).passphrase = none ∧
    ((encrypt (CryptoManager.new none) [] [] []).1 = .err .InvalidPassphrase ∧
     (decrypt (CryptoManager.new none) ⟨"", "", ""⟩).1 = .err .InvalidPassphrase) :=
  ⟨rfl, c4_no_passphrase_invalid (CryptoManager.new none) [] [] [] ⟨"", "", ""⟩ rfl⟩

/-- C5: after a successful derivation, a second `derive_key` call with
the same salt returns the identical 32-byte key, leaves the manager
unchanged, and does not run the derivation function again (the ghost
`derivations` counter does not move). -/
theorem c5_cache_correctness (cm : CryptoManager) (salt : String)
    (k : List Nat) (cm₁ : CryptoManager) (hwf : cacheWF cm)
    (h₁ : derive_key cm salt = (.ok k, cm₁)) :
    derive_key cm₁ salt = (.ok k, cm₁) ∧ k.length = 32 ∧
    (derive_key cm₁ salt).2.derivations = cm₁.derivations := by
  have h₂ := derive_key_cache_hit (derive_key_inserts h₁)
  exact ⟨h₂, derive_key_length hwf h₁, by rw [h₂]⟩

/-- C5 witness: concrete first derivation under passphrase "p" and the
unpadded 12-character salt "AAAAAAAAAAAA" (9 zero bytes, accepted by the
PHC salt validation and Argon2), then the cached second call. -/
theorem c5_witness :
    (cacheWF (CryptoManager.new (some "p")) ∧
     derive_key (CryptoManager.new (some "p")) "AAAAAAAAAAAA" =
       (.ok [156, 31, 162, 37, 168, 43, 174, 49, 180, 55, 186, 61, 192, 67,
             198, 73, 204, 79, 210, 85, 216, 91, 222, 97, 228, 103, 234, 109,
             240, 115, 246, 121],
        { passphrase := some "p",
          key_cache := [("AAAAAAAAAAAA",
            [156, 31, 162, 37, 168, 43, 174, 49, 180, 55, 186, 61, 192, 67,
             198, 73, 204, 79, 210, 85, 216, 91, 222, 97, 228, 103, 234, 109,
             240, 115, 246, 121])],
          derivations := 1 })) ∧
    (derive_key
        { passphrase := some "p",
          key_cache := [("AAAAAAAAAAAA",
            [156, 31, 162, 37, 168, 43, 174, 49, 180, 55, 186, 61, 192, 67,
             198, 73, 204, 79, 210, 85, 216, 91, 222, 97, 228, 103, 234, 109,
             240, 115, 246, 121])],
          derivations := 1 } "AAAAAAAAAAAA" =
       (.ok [156, 31, 162, 37, 168, 43, 174, 49, 180, 55, 186, 61, 192, 67,
             198, 73, 204, 79, 210, 85, 216, 91, 222, 97, 228, 103, 234, 109,
             240, 115, 246, 121],
        { passphrase := some "p",
          key_cache := [("AAAAAAAAAAAA",
            [156, 31, 162, 37, 168, 43, 174, 49, 180, 55, 186, 61, 192, 67,
             198, 73, 204, 79, 210, 85, 216, 91, 222, 97, 228, 103, 234, 109,
             240, 115, 246, 121])],
          derivations := 1 }) ∧
     List.length [156, 31, 162, 37, 168, 43, 174, 49, 180, 55, 186, 61, 192, 67,
             198, 73, 204, 79, 210, 85, 216, 91, 222, 97, 228, 103, 234, 109,
             240, 115, 246, 121] = 32 ∧
     (derive_key
        { passphrase := some "p",
          key_cache := [("AAAAAAAAAAAA",
            [156, 31, 162, 37, 168, 43, 174, 49, 180, 55, 186, 61, 192, 67,
             198, 73, 204, 79, 210, 85, 216, 91, 222, 97, 228, 103, 234, 109,
             240, 115, 246, 121])],
          derivations := 1 } "AAAAAAAAAAAA").2.derivations = 1) :=
  ⟨⟨cacheWF_new _, rfl⟩,
   c5_cache_correctness (CryptoManager.new (some "p")) "AAAAAAAAAAAA" _ _
     (cacheWF_new _) rfl⟩

/-- C9: `decrypt` is not total over well-formed envelopes: with
passphrase "p" and the unpadded 12-character salt "AAAAAAAAAAAA"
(9 zero bytes, which key derivation accepts), the envelope whose nonce
field is the empty string base64-decodes to the empty byte string
(length 0, not 12), and `decrypt` panics at `Nonce::from_slice` instead
of returning `DecryptionFailed`. -/
theorem c9_wrong_nonce_length_panics :
    base64Decode "" = some [] ∧
    (decrypt (CryptoManager.new (some "p"))
      ⟨"AAAAAAAAAAAA", "", "AA=="⟩).1 = .panicked :=
  ⟨rfl, rfl⟩

/-! ## Claim theorems: state layer -/

/-- C6: loading with no state file present succeeds and yields the
default state: theme "dark", auto-approve-read-ops, show-notifications,
shell "/bin/bash", encryption disabled, and empty collections; the
constructor returns exactly that state. -/
theorem c6_default_load (pp : Option String) (env : Env) (uuid ts : String) :
    (load_state (freshAppState pp) none).1 = .ok ∧
    AppState.new pp none env uuid ts =
      .ok { config := { theme := "dark",
                        auto_approve_read_ops := true,
                        show_notifications := true,
                        terminal_shell := "/bin/bash",
                        encryption_enabled := false },
            pending_operations := [],
            notifications := [],
            terminal_sessions := [],
            crypto := CryptoManager.new pp } none :=
  ⟨rfl, rfl⟩

/-! ## Helper lemmas: load_state / save_state structure -/

theorem decrypt_passphrase (cm : CryptoManager) (ed : EncryptedData) :
    (decrypt cm ed).2.passphrase = cm.passphrase := by
  unfold decrypt
  split
  · rfl
  · have hd := derive_key_passphrase cm ed.salt
    (repeat' split) <;> simp_all

theorem decrypt_cacheWF {cm : CryptoManager} (ed : EncryptedData)
    (hwf : cacheWF cm) : cacheWF (decrypt cm ed).2 := by
  unfold decrypt
  split
  · exact hwf
  · have hd : ∀ r cm', derive_key cm ed.salt = (r, cm') → cacheWF cm' :=
      fun r cm' h => derive_key_cacheWF hwf h
    (repeat' split) <;> simp_all

theorem load_state_err_fields {st : AppState} {fs : Option Json}
    {e : BoxError} {st' : AppState}
    (h : load_state st fs = (.err e, st')) :
    st'.config = st.config ∧
    st'.pending_operations = st.pending_operations ∧
    st'.notifications = st.notifications ∧
    st'.terminal_sessions = st.terminal_sessions := by
  cases fs with
  | none => simp [load_state] at h
  | some content =>
    unfold load_state at h
    split at h <;> (repeat' split at h) <;> simp_all <;>
      (obtain ⟨-, h2⟩ := h) <;> subst h2 <;> exact ⟨rfl, rfl, rfl, rfl⟩

theorem decrypt_snd_passphrase {cm : CryptoManager} {ed : EncryptedData}
    {r : RustOutcome (List Nat)} {cm' : CryptoManager}
    (h : decrypt cm ed = (r, cm')) : cm'.passphrase = cm.passphrase := by
  have hp := decrypt_passphrase cm ed
  rw [h] at hp
  exact hp

theorem decrypt_snd_cacheWF {cm : CryptoManager} {ed : EncryptedData}
    {r : RustOutcome (List Nat)} {cm' : CryptoManager}
    (h : decrypt cm ed = (r, cm')) (hwf : cacheWF cm) : cacheWF cm' := by
  have hp := decrypt_cacheWF ed hwf
  rw [h] at hp
  exact hp

theorem decrypt_cacheNoPad {cm : CryptoManager} (ed : EncryptedData)
    (hnp : cacheNoPad cm) : cacheNoPad (decrypt cm ed).2 := by
  unfold decrypt
  split
  · exact hnp
  · have hd : ∀ r cm', derive_key cm ed.salt = (r, cm') → cacheNoPad cm' :=
      fun r cm' h => derive_key_cacheNoPad hnp h
    (repeat' split) <;> simp_all

theorem decrypt_snd_cacheNoPad {cm : CryptoManager} {ed : EncryptedData}
    {r : RustOutcome (List Nat)} {cm' : CryptoManager}
    (h : decrypt cm ed = (r, cm')) (hnp : cacheNoPad cm) : cacheNoPad cm' := by
  have hp := decrypt_cacheNoPad ed hnp
  rw [h] at hp
  exact hp

theorem load_state_passphrase (st : AppState) (fs : Option Json) :
    (load_state st fs).2.crypto.passphrase = st.crypto.passphrase := by
  cases fs with
  | none => rfl
  | some content =>
    simp only [load_state]
    split
    · split
      · rfl
      · next ed hed =>
        cases hdec : decrypt st.crypto ed with
        | mk r cm' =>
          have hp : cm'.passphrase = st.crypto.passphrase := decrypt_snd_passphrase hdec
          cases r with
          | panicked => simp [hdec, hp]
          | err e => simp [hdec, hp]
          | ok bytes =>
            simp only [hdec]
            (repeat' split) <;> simp [hp]
    · split
      · rfl
      · rfl

theorem load_state_cacheWF (st : AppState) (fs : Option Json)
    (hwf : cacheWF st.crypto) : cacheWF (load_state st fs).2.crypto := by
  cases fs with
  | none => exact hwf
  | some content =>
    simp only [load_state]
    split
    · split
      · exact hwf
      · next ed hed =>
        cases hdec : decrypt st.crypto ed with
        | mk r cm' =>
          have hp : cacheWF cm' := decrypt_snd_cacheWF hdec hwf
          cases r with
          | panicked => simpa [hdec] using hp
          | err e => simpa [hdec] using hp
          | ok bytes =>
            simp only [hdec]
            (repeat' split) <;> simpa using hp
    · split
      · exact hwf
      · exact hwf

/-- Let-free unfolding of `save_state` (definitional). -/
theorem save_state_eq (st : AppState) (fs : Option Json) (env : Env) :
    save_state st fs env =
      (if st.crypto.is_encryption_enabled then
        match encrypt st.crypto env.saltRand env.nonceRand
            (jsonSerialize (PersistedState.toJson
              ⟨st.config, st.pending_operations, st.notifications,
               st.terminal_sessions⟩)) with
        | (.ok ed, cm') =>
          if env.writeOk then (.ok, { st with crypto := cm' }, some ed.toJson)
          else (.err (.io "write failed"), { st with crypto := cm' }, fs)
        | (.err e, cm') => (.err (.crypto e), { st with crypto := cm' }, fs)
        | (.panicked, cm') => (.panicked, { st with crypto := cm' }, fs)
      else
        if env.writeOk then
          (.ok, st, some (PersistedState.toJson
            ⟨st.config, st.pending_operations, st.notifications,
             st.terminal_sessions⟩))
        else (.err (.io "write failed"), st, fs)) := rfl

/-- `save_state` never mutates the four in-memory data fields (only the
crypto cache may grow through `encrypt`'s key derivation). -/
theorem save_state_fields (st : AppState) (fs : Option Json) (env : Env) :
    (save_state st fs env).2.1.config = st.config ∧
    (save_state st fs env).2.1.pending_operations = st.pending_operations ∧
    (save_state st fs env).2.1.notifications = st.notifications ∧
    (save_state st fs env).2.1.terminal_sessions = st.terminal_sessions := by
  rw [save_state_eq]
  (repeat' split) <;> exact ⟨rfl, rfl, rfl, rfl⟩

/-- A failed `save_state` leaves the file as it was. -/
theorem save_state_err_fs (st : AppState) (fs : Option Json) (env : Env)
    (e : BoxError) (h : (save_state st fs env).1 = .err e) :
    (save_state st fs env).2.2 = fs := by
  rw [save_state_eq] at h ⊢
  by_cases henc : st.crypto.is_encryption_enabled = true
  · rw [if_pos henc] at h ⊢
    cases hE : encrypt st.crypto env.saltRand env.nonceRand
        (jsonSerialize (PersistedState.toJson
          ⟨st.config, st.pending_operations, st.notifications,
           st.terminal_sessions⟩)) with
    | mk r cm' =>
      simp only [hE] at h ⊢
      cases r with
      | ok ed =>
        dsimp only at h ⊢
        by_cases hw : env.writeOk = true
        · rw [if_pos hw] at h
          simp at h
        · rw [if_neg hw]
      | err e' => rfl
      | panicked => rfl
  · rw [if_neg henc] at h ⊢
    by_cases hw : env.writeOk = true
    · rw [if_pos hw] at h
      simp at h
    · rw [if_neg hw]

/-- `save_state` with encryption disabled and a working disk writes the
serialized snapshot of the four fields. -/
theorem save_state_plain (st : AppState) (fs : Option Json) (env : Env)
    (hpp : st.crypto.passphrase = none) (hw : env.writeOk = true) :
    save_state st fs env =
      (.ok, st, some (PersistedState.toJson
        ⟨st.config, st.pending_operations, st.notifications,
         st.terminal_sessions⟩)) := by
  rw [save_state_eq]
  have henc : st.crypto.is_encryption_enabled = false := by
    simp [CryptoManager.is_encryption_enabled, hpp]
  rw [henc]
  simp [hw]

/-- `save_state` with encryption enabled never writes: the encryption
of the snapshot fails at key derivation (padded fresh salt), the error
is surfaced, and the file keeps its previous content. -/
theorem save_state_enc_fails (st : AppState) (fs : Option Json) (env : Env)
    {pw : String} (hpp : st.crypto.passphrase = some pw)
    (hnp : cacheNoPad st.crypto)
    (h16 : env.saltRand.length = 16) (hsb : ∀ b ∈ env.saltRand, b < 256) :
    save_state st fs env =
      (.err (.crypto (.KeyDerivationFailed "salt string error")), st, fs) := by
  rw [save_state_eq]
  have henc : st.crypto.is_encryption_enabled = true := by
    simp [CryptoManager.is_encryption_enabled, hpp]
  rw [henc]
  simp only [if_true]
  rw [encrypt_padded_salt_fails hpp hnp env.saltRand env.nonceRand _ h16 hsb]

theorem load_state_cacheNoPad (st : AppState) (fs : Option Json)
    (hnp : cacheNoPad st.crypto) : cacheNoPad (load_state st fs).2.crypto := by
  cases fs with
  | none => exact hnp
  | some content =>
    simp only [load_state]
    split
    · split
      · exact hnp
      · next ed hed =>
        cases hdec : decrypt st.crypto ed with
        | mk r cm' =>
          have hp : cacheNoPad cm' := decrypt_snd_cacheNoPad hdec hnp
          cases r with
          | panicked => simpa [hdec] using hp
          | err e => simpa [hdec] using hp
          | ok bytes =>
            simp only [hdec]
            (repeat' split) <;> simpa using hp
    · split
      · exact hnp
      · exact hnp

/-- C10: `load_state` is atomic over the four in-memory fields: when it
returns an error, config, pending_operations, notifications and
terminal_sessions are exactly as before the call. -/
theorem c10_load_error_atomic (st : AppState) (fs : Option Json)
    (e : BoxError) (st' : AppState)
    (h : load_state st fs = (.err e, st')) :
    st'.config = st.config ∧
    st'.pending_operations = st.pending_operations ∧
    st'.notifications = st.notifications ∧
    st'.terminal_sessions = st.terminal_sessions :=
  load_state_err_fields h

/-- C10 witness: a state with no passphrase loading a non-object file
fails with a parse error and keeps all four fields. -/
theorem c10_witness :
    load_state (freshAppState none) (some (.str "garbage")) =
      (.err (.serde "invalid state json"), freshAppState none) ∧
    ((freshAppState none).config = (freshAppState none).config ∧
     (freshAppState none).pending_operations = (freshAppState none).pending_operations ∧
     (freshAppState none).notifications = (freshAppState none).notifications ∧
     (freshAppState none).terminal_sessions = (freshAppState none).terminal_sessions) :=
  ⟨rfl, c10_load_error_atomic (freshAppState none) (some (.str "garbage")) _ _ rfl⟩

/-- C7: `add_operation` and `add_notification` apply the in-memory
mutation before the auto-save: the new entry is present afterwards even
when the save fails, the failed save leaves the file untouched (no
retry, the file is the outcome of the single save attempt), the fresh id
is returned regardless, and the save error is only surfaced as the
returned save outcome. -/
theorem c7_autosave_no_rollback (st : AppState) (fs : Option Json) (env : Env)
    (opty : String) (payload : Json) (src uuid ts msg lvl uuid2 ts2 : String) :
    (∀ id st' fs' e,
      add_operation st fs env opty payload src uuid ts = (id, st', fs', .err e) →
      id = uuid ∧
      st'.pending_operations =
        st.pending_operations ++ [⟨uuid, opty, payload, "pending", ts, src⟩] ∧
      fs' = fs) ∧
    (∀ st' fs' e,
      add_notification st fs env msg lvl uuid2 ts2 = (st', fs', .err e) →
      st'.notifications = st.notifications ++ [⟨uuid2, msg, lvl, ts2, false⟩] ∧
      fs' = fs) := by
  constructor
  · intro id st' fs' e h
    unfold add_operation at h
    dsimp only at h
    cases hs : save_state
        { st with pending_operations :=
            st.pending_operations ++ [⟨uuid, opty, payload, "pending", ts, src⟩] }
        fs env with
    | mk r rest =>
      cases rest with
      | mk st2 fs2 =>
        rw [hs] at h
        simp only [Prod.mk.injEq] at h
        obtain ⟨h1, h2, h3, h4⟩ := h
        subst h1; subst h2; subst h3
        have hf := (save_state_fields
          { st with pending_operations :=
              st.pending_operations ++ [⟨uuid, opty, payload, "pending", ts, src⟩] }
          fs env).2.1
        rw [hs] at hf
        refine ⟨rfl, hf, ?_⟩
        have := save_state_err_fs
          { st with pending_operations :=
              st.pending_operations ++ [⟨uuid, opty, payload, "pending", ts, src⟩] }
          fs env e (by rw [hs, ← h4])
        rw [hs] at this
        exact this
  · intro st' fs' e h
    unfold add_notification at h
    dsimp only at h
    cases hs : save_state
        { st with notifications :=
            st.notifications ++ [⟨uuid2, msg, lvl, ts2, false⟩] }
        fs env with
    | mk r rest =>
      cases rest with
      | mk st2 fs2 =>
        rw [hs] at h
        simp only [Prod.mk.injEq] at h
        obtain ⟨h1, h2, h3⟩ := h
        subst h1; subst h2
        have hf := (save_state_fields
          { st with notifications :=
              st.notifications ++ [⟨uuid2, msg, lvl, ts2, false⟩] }
          fs env).2.2.1
        rw [hs] at hf
        refine ⟨hf, ?_⟩
        have := save_state_err_fs
          { st with notifications :=
              st.notifications ++ [⟨uuid2, msg, lvl, ts2, false⟩] }
          fs env e (by rw [hs, ← h3])
        rw [hs] at this
        exact this

/-- C7 witness: with a failing disk (`writeOk = false`), both mutators
keep the new entry in memory, leave the file untouched, and surface the
I/O save error. -/
theorem c7_witness :
    (add_operation (freshAppState none) none ⟨[], [], false⟩ "write_file" .null
        "sidecar" "u" "t" =
      ("u",
       { freshAppState none with pending_operations :=
           [⟨"u", "write_file", .null, "pending", "t", "sidecar"⟩] },
       none, .err (.io "write failed")) ∧
     add_notification (freshAppState none) none ⟨[], [], false⟩ "hello" "info"
        "u2" "t2" =
      ({ freshAppState none with notifications :=
           [⟨"u2", "hello", "info", "t2", false⟩] },
       none, .err (.io "write failed"))) ∧
    (("u" : String) = "u" ∧
     ({ freshAppState none with pending_operations :=
          [⟨"u", "write_file", .null, "pending", "t", "sidecar"⟩] } :
        AppState).pending_operations =
       (freshAppState none).pending_operations ++
         [⟨"u", "write_file", .null, "pending", "t", "sidecar"⟩] ∧
     (none : Option Json) = none) ∧
    (({ freshAppState none with notifications :=
          [⟨"u2", "hello", "info", "t2", false⟩] } :
        AppState).notifications =
       (freshAppState none).notifications ++
         [⟨"u2", "hello", "info", "t2", false⟩] ∧
     (none : Option Json) = none) :=
  ⟨⟨rfl, rfl⟩,
   (c7_autosave_no_rollback (freshAppState none) none ⟨[], [], false⟩
      "write_file" .null "sidecar" "u" "t" "hello" "info" "u2" "t2").1
     "u" _ none (.io "write failed") rfl,
   (c7_autosave_no_rollback (freshAppState none) none ⟨[], [], false⟩
      "write_file" .null "sidecar" "u" "t" "hello" "info" "u2" "t2").2
     _ none (.io "write failed") rfl⟩

/-- C3 counterexample: the claim's encrypted-save direction is false
because a save with encryption enabled never produces a file.  Starting
from a valid plaintext state file, a save on a state with passphrase
"p" fails at key derivation and leaves the file unchanged, and the
subsequent load with encryption disabled SUCCEEDS instead of failing
with a parse/deserialize error. -/
theorem c3_counterexample :
    (save_state (freshAppState (some "p"))
        (some (PersistedState.toJson PersistedState.default))
        (Env.mk (List.range 16) (List.range 12) true)).2.2 =
      some (PersistedState.toJson PersistedState.default) ∧
    (load_state (freshAppState none)
        (save_state (freshAppState (some "p"))
          (some (PersistedState.toJson PersistedState.default))
          (Env.mk (List.range 16) (List.range 12) true)).2.2).1 = .ok :=
  ⟨rfl, rfl⟩

/-- C3 (amended): (a) a file saved with encryption disabled and loaded
with encryption enabled fails to parse as an envelope, yielding a serde
error, no panic, and the loading state untouched; (b) a save with
encryption enabled never produces a file at all: the padded fresh salt
makes its encryption fail with `KeyDerivationFailed`, the state and the
old file content are left exactly as they were, so the saved-encrypted/
loaded-plaintext mismatch of the original claim cannot arise. -/
theorem c3_amended_mode_mismatch (st₁ st₂ : AppState) (fs0 : Option Json)
    (env : Env) (pw : String) :
    (st₁.crypto.passphrase = none → st₂.crypto.passphrase = some pw →
     env.writeOk = true →
      load_state st₂ (save_state st₁ fs0 env).2.2 =
        (.err (.serde "invalid envelope json"), st₂)) ∧
    (st₁.crypto.passphrase = some pw → cacheNoPad st₁.crypto →
     env.saltRand.length = 16 → (∀ b ∈ env.saltRand, b < 256) →
      save_state st₁ fs0 env =
        (.err (.crypto (.KeyDerivationFailed "salt string error")), st₁, fs0)) := by
  constructor
  · intro h1 h2 hw
    rw [save_state_plain st₁ fs0 env h1 hw]
    dsimp only
    have henc : st₂.crypto.is_encryption_enabled = true := by
      simp [CryptoManager.is_encryption_enabled, h2]
    simp only [load_state, henc, if_true, envelope_fromJson_state]
  · intro h1 hnp h16 hsb
    exact save_state_enc_fails st₁ fs0 env h1 hnp h16 hsb

/-- C3 witness: concrete default states, passphrase "p" on one side,
all-zero randomness, working disk. -/
theorem c3_amended_witness :
    ((freshAppState none).crypto.passphrase = none ∧
     (freshAppState (some "p")).crypto.passphrase = some "p" ∧
     (Env.mk (List.range 16) (List.range 12) true).writeOk = true ∧
     (Env.mk (List.range 16) (List.range 12) true).saltRand.length = 16 ∧
     (∀ b ∈ (Env.mk (List.range 16) (List.range 12) true).saltRand, b < 256) ∧
     cacheNoPad (freshAppState (some "p")).crypto) ∧
    load_state (freshAppState (some "p"))
        (save_state (freshAppState none) none
          (Env.mk (List.range 16) (List.range 12) true)).2.2 =
      (.err (.serde "invalid envelope json"), freshAppState (some "p")) ∧
    save_state (freshAppState (some "p")) none
        (Env.mk (List.range 16) (List.range 12) true) =
      (.err (.crypto (.KeyDerivationFailed "salt string error")),
       freshAppState (some "p"), none) :=
  ⟨⟨rfl, rfl, rfl, by decide, by decide, cacheNoPad_new _⟩,
   (c3_amended_mode_mismatch (freshAppState none) (freshAppState (some "p")) none
      (Env.mk (List.range 16) (List.range 12) true) "p").1 rfl rfl rfl,
   (c3_amended_mode_mismatch (freshAppState (some "p")) (freshAppState none) none
      (Env.mk (List.range 16) (List.range 12) true) "p").2 rfl (cacheNoPad_new _)
     (by decide) (by decide)⟩

/-- With encryption disabled, a failing load of an existing file means
the file content does not parse as `PersistedState`. -/
theorem load_plain_err_parse (st : AppState) {fs0 : Json} {e : BoxError}
    {st' : AppState} (hpp : st.crypto.passphrase = none)
    (h : load_state st (some fs0) = (.err e, st')) :
    PersistedState.fromJson fs0 = none := by
  have henc : st.crypto.is_encryption_enabled = false := by
    simp [CryptoManager.is_encryption_enabled, hpp]
  simp only [load_state, henc, Bool.false_eq_true, if_false] at h
  cases hp : PersistedState.fromJson fs0 with
  | none => rfl
  | some ps =>
    rw [hp] at h
    simp at h

/-- The serialized warning-notification state parses back to itself. -/
theorem fromJson_warn_roundtrip (uuid ts : String) :
    PersistedState.fromJson (PersistedState.toJson
      ⟨SidecarConfig.default, [],
       [⟨uuid, "Failed to load persisted state", "warning", ts, false⟩], []⟩) =
    some ⟨SidecarConfig.default, [],
      [⟨uuid, "Failed to load persisted state", "warning", ts, false⟩], []⟩ := rfl

/-- C8 counterexample: with a passphrase configured ("p") and an
unreadable state file, the constructor's recovery autosave fails at
encryption (padded fresh salt), so the original file content is
PRESERVED — the claim's "the original file content is destroyed" is
false in encrypted mode. -/
theorem c8_counterexample :
    AppState.new (some "p") (some (.str "garbage"))
        (Env.mk (List.range 16) (List.range 12) true) "u" "t" =
      .ok { config := SidecarConfig.default,
            pending_operations := [],
            notifications :=
              [⟨"u", "Failed to load persisted state", "warning", "t", false⟩],
            terminal_sessions := [],
            crypto := CryptoManager.new (some "p") }
        (some (.str "garbage")) := rfl

/-- C8 (amended): when loading the persisted state fails at
construction, the constructor still returns a state (defaults plus the
"Failed to load persisted state"/"warning" notification) and
immediately attempts the autosave; with encryption disabled the
autosave overwrites the state file with the serialized
default-plus-warning state, destroying the original content; with
encryption enabled the autosave's encryption always fails at key
derivation (padded fresh salt), so the original unreadable file content
is preserved, not destroyed. -/
theorem c8_amended_constructor_on_load_failure (pp : Option String) (fs0 : Json)
    (env : Env) (uuid ts : String) (e : BoxError) (st1 : AppState)
    (h : load_state (freshAppState pp) (some fs0) = (.err e, st1))
    (hw : env.writeOk = true) (h16 : env.saltRand.length = 16)
    (hsb : ∀ b ∈ env.saltRand, b < 256) :
    ∃ st' fs',
      AppState.new pp (some fs0) env uuid ts = .ok st' fs' ∧
      st'.config = SidecarConfig.default ∧
      st'.pending_operations = [] ∧
      st'.terminal_sessions = [] ∧
      st'.notifications =
        [⟨uuid, "Failed to load persisted state", "warning", ts, false⟩] ∧
      (pp = none →
        fs' = some (PersistedState.toJson
          ⟨SidecarConfig.default, [],
           [⟨uuid, "Failed to load persisted state", "warning", ts, false⟩], []⟩) ∧
        some fs0 ≠ fs') ∧
      (∀ pw, pp = some pw → fs' = some fs0) := by
  obtain ⟨hcfg0, hpo0, hno0, hse0⟩ := load_state_err_fields h
  have hcfg : st1.config = SidecarConfig.default := hcfg0
  have hpo : st1.pending_operations = [] := hpo0
  have hno : st1.notifications = [] := hno0
  have hse : st1.terminal_sessions = [] := hse0
  have hpp1 : st1.crypto.passphrase = pp := by
    have hq := load_state_passphrase (freshAppState pp) (some fs0)
    rw [h] at hq
    exact hq
  cases pp with
  | none =>
    have hsave := save_state_plain
      { st1 with notifications := st1.notifications ++
        [⟨uuid, "Failed to load persisted state", "warning", ts, false⟩] }
      (some fs0) env hpp1 hw
    dsimp only at hsave
    have hadd : add_notification st1 (some fs0) env
        "Failed to load persisted state" "warning" uuid ts =
      ({ st1 with notifications := st1.notifications ++
          [⟨uuid, "Failed to load persisted state", "warning", ts, false⟩] },
       some (PersistedState.toJson
         ⟨st1.config, st1.pending_operations,
          st1.notifications ++
            [⟨uuid, "Failed to load persisted state", "warning", ts, false⟩],
          st1.terminal_sessions⟩),
       .ok) := by
      unfold add_notification
      dsimp only
      simp only [hsave]
    refine ⟨{ st1 with notifications := st1.notifications ++
        [⟨uuid, "Failed to load persisted state", "warning", ts, false⟩] },
      some (PersistedState.toJson
        ⟨st1.config, st1.pending_operations,
         st1.notifications ++
           [⟨uuid, "Failed to load persisted state", "warning", ts, false⟩],
         st1.terminal_sessions⟩),
      ?_, hcfg, hpo, hse, ?_, ?_, ?_⟩
    · unfold AppState.new
      simp only [h, hadd]
    · dsimp only
      rw [hno, List.nil_append]
    · intro _
      constructor
      · rw [hcfg, hpo, hno, hse, List.nil_append]
      · intro heq
        have hparse := load_plain_err_parse (freshAppState none) rfl h
        have hfs := Option.some.inj heq
        rw [hcfg, hpo, hno, hse, List.nil_append] at hfs
        rw [hfs, fromJson_warn_roundtrip] at hparse
        cases hparse
    · intro pw hx
      cases hx
  | some pw =>
    have hnp1 : cacheNoPad st1.crypto := by
      have hq := load_state_cacheNoPad (freshAppState (some pw)) (some fs0)
        (cacheNoPad_new (some pw))
      rw [h] at hq
      exact hq
    have hsave := save_state_enc_fails
      { st1 with notifications := st1.notifications ++
        [⟨uuid, "Failed to load persisted state", "warning", ts, false⟩] }
      (some fs0) env hpp1 hnp1 h16 hsb
    have hadd : add_notification st1 (some fs0) env
        "Failed to load persisted state" "warning" uuid ts =
      ({ st1 with notifications := st1.notifications ++
          [⟨uuid, "Failed to load persisted state", "warning", ts, false⟩] },
       some fs0,
       .err (.crypto (.KeyDerivationFailed "salt string error"))) := by
      unfold add_notification
      dsimp only
      simp only [hsave]
    refine ⟨{ st1 with notifications := st1.notifications ++
        [⟨uuid, "Failed to load persisted state", "warning", ts, false⟩] },
      some fs0, ?_, hcfg, hpo, hse, ?_, ?_, ?_⟩
    · unfold AppState.new
      simp only [h, hadd]
    · dsimp only
      rw [hno, List.nil_append]
    · intro hx
      cases hx
    · intro pw2 hx
      rfl

/-- C8 witness: unencrypted mode, unparseable file content `"garbage"`,
working disk — the destructive-overwrite half; the preserved-file half
of the amended statement is vacuous at this passphrase. -/
theorem c8_amended_witness :
    (load_state (freshAppState none) (some (.str "garbage")) =
       (.err (.serde "invalid state json"), freshAppState none) ∧
     (Env.mk (List.range 16) (List.range 12) true).writeOk = true ∧
     (Env.mk (List.range 16) (List.range 12) true).saltRand.length = 16 ∧
     (∀ b ∈ (Env.mk (List.range 16) (List.range 12) true).saltRand, b < 256)) ∧
    (∃ st' fs',
      AppState.new none (some (.str "garbage"))
          (Env.mk (List.range 16) (List.range 12) true) "u" "t" = .ok st' fs' ∧
      st'.config = SidecarConfig.default ∧
      st'.pending_operations = [] ∧
      st'.terminal_sessions = [] ∧
      st'.notifications =
        [⟨"u", "Failed to load persisted state", "warning", "t", false⟩] ∧
      ((none : Option String) = none →
        fs' = some (PersistedState.toJson
          ⟨SidecarConfig.default, [],
           [⟨"u", "Failed to load persisted state", "warning", "t", false⟩], []⟩) ∧
        some (Json.str "garbage") ≠ fs') ∧
      (∀ pw, (none : Option String) = some pw → fs' = some (Json.str "garbage"))) :=
  ⟨⟨rfl, rfl, by decide, by decide⟩,
   c8_amended_constructor_on_load_failure none (.str "garbage")
     (Env.mk (List.range 16) (List.range 12) true) "u" "t"
     (.serde "invalid state json") (freshAppState none) rfl rfl
     (by decide) (by decide)⟩

